import Mathlib

/-!
Verification of the SNCB Slac journey-tracking system.

The repository ships the Next.js frontend (display pages and two API proxy
routes). The backend ingestion pipeline — Upstream Client, Journey Mapper,
Reconciler, Poll Scheduler and Persistence Gateway — is described by the
design document but its source is not part of the tree, so those components
are modelled here from the design document and marked as such; the frontend
definitions are translated directly from the TypeScript sources.
-/

namespace Slac

/-- Journey status: a journey is `running` until its terminus reports an
arrival, after which it is `completed`. -/
inductive Status where
  | running
  | completed
deriving DecidableEq, Repr

/-- Modelled from the spec: one station visit within a Journey (§3 Stop).
Realtime fields use an explicit presence wrapper (`Option`) so that
"absent" is structurally distinct from any timestamp value (§9). Timestamps
are modelled as natural numbers (seconds since epoch). -/
structure Stop where
  station : String
  planned_arrival : Option Nat
  planned_departure : Option Nat
  realtime_arrival : Option Nat
  realtime_departure : Option Nat
  left : Bool
  arrived : Bool
  is_extra_stop : Bool
  arrival_canceled : Bool
  departure_canceled : Bool
deriving DecidableEq, Repr

/-- Modelled from the spec: one scheduled vehicle run on the tracked route
for one service date (§3 Journey). Natural key: `(vehicle_uri, service_date)`. -/
structure Journey where
  vehicle_uri : String
  service_date : String
  vehicle_name : String
  planned_departure : Option Nat
  planned_arrival : Option Nat
  realtime_departure : Option Nat
  realtime_arrival : Option Nat
  status : Status
deriving DecidableEq, Repr

/-- Natural key of a journey. -/
def jkey (j : Journey) : String × String :=
  (j.vehicle_uri, j.service_date)

/-- Modelled from the spec: one stop record of a raw upstream payload (§6):
planned/realtime departure and arrival per stop, sequence position given by
list order, cancellation flags and the arrival/departure events. -/
structure RawStop where
  station : String
  planned_arrival : Option Nat
  planned_departure : Option Nat
  realtime_arrival : Option Nat
  realtime_departure : Option Nat
  left : Bool
  arrived : Bool
  arrival_canceled : Bool
  departure_canceled : Bool
deriving DecidableEq, Repr

/-- Modelled from the spec: a decoded upstream journey payload (§4.1, §6),
carrying the vehicle identity, the canonical planned itinerary (station
sequence of the static schedule) and the live stop list in reported
sequence order. -/
structure RawPayload where
  vehicle_uri : String
  service_date : String
  vehicle_name : String
  planned_itinerary : List String
  stops : List RawStop
deriving DecidableEq, Repr

/-- Modelled from the spec: the Journey Mapper's per-stop translation
(§4.2). Realtime fields are carried over as-is (absent stays absent, never
a zero sentinel); cancellation flags are copied verbatim; a stop absent
from the canonical planned itinerary is tagged `is_extra_stop = true` and
kept at its reported position. -/
def mapStop (planned : List String) (r : RawStop) : Stop :=
  { station := r.station
    planned_arrival := r.planned_arrival
    planned_departure := r.planned_departure
    realtime_arrival := r.realtime_arrival
    realtime_departure := r.realtime_departure
    left := r.left
    arrived := r.arrived
    is_extra_stop := !(planned.contains r.station)
    arrival_canceled := r.arrival_canceled
    departure_canceled := r.departure_canceled }

/-- Modelled from the spec: status derivation (§4.2) — `completed` exactly
when the payload's terminus stop (last in sequence) carries a realtime
arrival, otherwise `running`. -/
def mapStatus (stops : List RawStop) : Status :=
  match stops.getLast? with
  | some t => if t.realtime_arrival.isSome then Status.completed else Status.running
  | none => Status.running

/-- Modelled from the spec: the Journey Mapper (§4.2),
`map(RawJourneyPayload) → Journey, OrderedSequence<Stop>`. Pure function;
journey-level planned/realtime times are taken from the origin stop's
departure and the terminus stop's arrival. -/
def mapPayload (p : RawPayload) : Journey × List Stop :=
  ({ vehicle_uri := p.vehicle_uri
     service_date := p.service_date
     vehicle_name := p.vehicle_name
     planned_departure := p.stops.head?.bind (fun s => s.planned_departure)
     planned_arrival := p.stops.getLast?.bind (fun s => s.planned_arrival)
     realtime_departure := p.stops.head?.bind (fun s => s.realtime_departure)
     realtime_arrival := p.stops.getLast?.bind (fun s => s.realtime_arrival)
     status := mapStatus p.stops },
   p.stops.map (mapStop p.planned_itinerary))

/-- C2: For every upstream payload, the Journey Mapper derives
`status = completed` if and only if the payload's terminus Stop carries a
non-absent realtime arrival; otherwise the mapped status is `running`. -/
theorem mapper_completed_iff_terminus_realtime_arrival (p : RawPayload) :
    ((mapPayload p).1.status = Status.completed ↔
      ∃ t, (mapPayload p).2.getLast? = some t ∧ t.realtime_arrival.isSome = true) ∧
    ((mapPayload p).1.status = Status.completed ∨ (mapPayload p).1.status = Status.running) := by
  constructor
  · simp only [mapPayload, mapStatus, List.getLast?_map]
    cases hlast : p.stops.getLast? with
    | none => simp
    | some t =>
      simp only [Option.map_some]
      constructor
      · intro hc
        refine ⟨mapStop p.planned_itinerary t, rfl, ?_⟩
        by_cases h : t.realtime_arrival.isSome = true
        · simpa [mapStop] using h
        · simp [h] at hc
      · rintro ⟨s, hs, hrt⟩
        obtain rfl : mapStop p.planned_itinerary t = s := by
          simpa using hs
        have : t.realtime_arrival.isSome = true := by simpa [mapStop] using hrt
        simp [this]
  · cases h : (mapPayload p).1.status
    · right; rfl
    · left; rfl

/-- C7: For every upstream payload, the mapped stop sequence has the same
length as the payload's stop list, preserves each stop's station at its
reported sequence position, and a stop absent from the canonical planned
itinerary is tagged `is_extra_stop = true` at that same position (not
appended at the end and not dropped). -/
theorem mapper_keeps_extra_stops_in_position (p : RawPayload) (i : Nat)
    (hi : i < p.stops.length) :
    (mapPayload p).2.length = p.stops.length ∧
    ∀ hj : i < (mapPayload p).2.length,
      ((mapPayload p).2.get ⟨i, hj⟩).station = (p.stops.get ⟨i, hi⟩).station ∧
      (p.planned_itinerary.contains (p.stops.get ⟨i, hi⟩).station = false →
        ((mapPayload p).2.get ⟨i, hj⟩).is_extra_stop = true) := by
  refine ⟨by simp [mapPayload], ?_⟩
  intro hj
  have hmap : (mapPayload p).2.get ⟨i, hj⟩ =
      mapStop p.planned_itinerary (p.stops.get ⟨i, hi⟩) := by
    simp [mapPayload, List.get_eq_getElem]
  refine ⟨by rw [hmap]; rfl, ?_⟩
  intro habs
  rw [hmap]
  have hnm : p.stops[i].station ∉ p.planned_itinerary := by simpa using habs
  simp [mapStop, hnm]

/-- Closed instance of `mapper_keeps_extra_stops_in_position`: a payload of
four stops whose second stop is absent from the planned itinerary maps to
four stops with the extra stop flagged at position 2. -/
theorem mapper_keeps_extra_stops_in_position_witness :
    ((mapPayload
        { vehicle_uri := "v1", service_date := "d1", vehicle_name := "IC 1",
          planned_itinerary := ["A", "B", "D"],
          stops := [
            { station := "A", planned_arrival := none, planned_departure := some 10,
              realtime_arrival := none, realtime_departure := none,
              left := false, arrived := false,
              arrival_canceled := false, departure_canceled := false },
            { station := "X", planned_arrival := some 20, planned_departure := some 21,
              realtime_arrival := none, realtime_departure := none,
              left := false, arrived := false,
              arrival_canceled := false, departure_canceled := false },
            { station := "B", planned_arrival := some 30, planned_departure := some 31,
              realtime_arrival := none, realtime_departure := none,
              left := false, arrived := false,
              arrival_canceled := false, departure_canceled := false },
            { station := "D", planned_arrival := some 40, planned_departure := none,
              realtime_arrival := none, realtime_departure := none,
              left := false, arrived := false,
              arrival_canceled := false, departure_canceled := false }] }).2.length = 4) ∧
    (1 : Nat) < 4 := by
  have h := mapper_keeps_extra_stops_in_position
    { vehicle_uri := "v1", service_date := "d1", vehicle_name := "IC 1",
      planned_itinerary := ["A", "B", "D"],
      stops := [
        { station := "A", planned_arrival := none, planned_departure := some 10,
          realtime_arrival := none, realtime_departure := none,
          left := false, arrived := false,
          arrival_canceled := false, departure_canceled := false },
        { station := "X", planned_arrival := some 20, planned_departure := some 21,
          realtime_arrival := none, realtime_departure := none,
          left := false, arrived := false,
          arrival_canceled := false, departure_canceled := false },
        { station := "B", planned_arrival := some 30, planned_departure := some 31,
          realtime_arrival := none, realtime_departure := none,
          left := false, arrived := false,
          arrival_canceled := false, departure_canceled := false },
        { station := "D", planned_arrival := some 40, planned_departure := none,
          realtime_arrival := none, realtime_departure := none,
          left := false, arrived := false,
          arrival_canceled := false, departure_canceled := false }] }
    1 (by decide)
  exact ⟨h.1, by decide⟩

/-- Natural key type: `(vehicle_uri, service_date)`. -/
abbrev Key := String × String

/-- A mapped snapshot: the Journey row together with its full ordered stop set. -/
abbrev Snapshot := Journey × List Stop

/-- Modelled from the spec: durable storage of the Persistence Gateway
(§4.5), an association of natural keys to the committed Journey and its
full Stop set. -/
abbrev Store := List (Key × Snapshot)

/-- Modelled from the spec: the Persistence Gateway's upsert-by-natural-key
(§4.5) — full-replace semantics: an existing record for the key is replaced
in place by the Journey row and its complete stop set, otherwise a new
record is appended; never an append of stops to an existing record. -/
def upsert : Store → Key → Snapshot → Store
  | [], k, v => [(k, v)]
  | e :: rest, k, v => if e.1 = k then (k, v) :: rest else e :: upsert rest k v

/-- Modelled from the spec: the Persistence Gateway's read
`get(vehicle_uri, service_date)` (§4.5). -/
def getPersisted : Store → Key → Option Snapshot
  | [], _ => none
  | e :: rest, k => if e.1 = k then some e.2 else getPersisted rest k

/-- Upserting the same key/value twice is the same as upserting it once. -/
theorem upsert_upsert (s : Store) (k : Key) (v : Snapshot) :
    upsert (upsert s k v) k v = upsert s k v := by
  induction s with
  | nil => simp [upsert]
  | cons e rest ih =>
    by_cases h : e.1 = k
    · simp [upsert, h]
    · simp [upsert, h, ih]

/-- Reading back the key just upserted returns exactly the stored snapshot. -/
theorem getPersisted_upsert (s : Store) (k : Key) (v : Snapshot) :
    getPersisted (upsert s k v) k = some v := by
  induction s with
  | nil => simp [upsert, getPersisted]
  | cons e rest ih =>
    by_cases h : e.1 = k <;> simp [upsert, getPersisted, h, ih]

/-- Reconciler decision outcome (§4.3). -/
inductive Action where
  | Ignore
  | Track
  | Persist
deriving DecidableEq, Repr

/-- Modelled from the spec: the Reconciler's decision (§4.3, §8).
A `completed` mapped journey is persisted: conditions (a) "no durable
record exists" and (b) "the stop set differs" of §4.3 are sufficient
conditions, and §8's fourth-poll scenario shows `Persist` is emitted again
even for a byte-identical completed poll whose record is already stored
(the idempotent upsert makes that re-persist a no-op). A `running` journey
is `Ignore`d when the identical snapshot is already tracked with no changed
field, and `Track`ed when it is new or has changed since the last
observation. The `persisted` argument is part of the §4.3 contract (looked
up by natural key before deciding); the completed branch does not depend
on it. -/
def reconcile (j : Journey) (stops : List Stop)
    (persisted tracked : Option Snapshot) : Action :=
  match j.status with
  | Status.completed => Action.Persist
  | Status.running => if tracked = some (j, stops) then Action.Ignore else Action.Track

/-- Modelled from the spec: the effect of the Reconciler's `Persist` action
(§4.3) — an idempotent upsert via the Persistence Gateway keyed by
`(vehicle_uri, service_date)`, replacing the full stop set atomically with
the newly mapped one. -/
def persistAction (store : Store) (j : Journey) (stops : List Stop) : Store :=
  upsert store (jkey j) (j, stops)

/-- Apply a function `n` times. -/
def applyN {α : Type} (f : α → α) : Nat → α → α
  | 0, a => a
  | n + 1, a => f (applyN f n a)

/-- C1: applying the Reconciler's Persist action N ≥ 1 times with
byte-identical mapped Journey and Stop input yields exactly the same stored
state as applying it once; the second and later applications produce no
observable change. -/
theorem persist_idempotent (store : Store) (j : Journey) (stops : List Stop)
    (n : Nat) (hn : 1 ≤ n) (hc : j.status = Status.completed) :
    applyN (fun st => persistAction st j stops) n store =
      persistAction store j stops := by
  induction n with
  | zero => exact absurd hn (by decide)
  | succ m ih =>
    cases Nat.eq_zero_or_pos m with
    | inl h0 => subst h0; rfl
    | inr hm =>
      show persistAction (applyN (fun st => persistAction st j stops) m store) j stops =
        persistAction store j stops
      rw [ih hm]
      exact upsert_upsert store (jkey j) (j, stops)

/-- Concrete completed journey used in closed instances below. -/
def jDone : Journey :=
  { vehicle_uri := "v1", service_date := "d1", vehicle_name := "IC 1",
    planned_departure := some 10, planned_arrival := some 40,
    realtime_departure := some 10, realtime_arrival := some 42,
    status := Status.completed }

/-- Concrete terminus stop (with realtime arrival) for `jDone`. -/
def sDone : Stop :=
  { station := "D", planned_arrival := some 40, planned_departure := none,
    realtime_arrival := some 42, realtime_departure := none,
    left := false, arrived := true, is_extra_stop := false,
    arrival_canceled := false, departure_canceled := false }

/-- Concrete running journey used in closed instances below. -/
def jRun : Journey :=
  { vehicle_uri := "v2", service_date := "d1", vehicle_name := "IC 2",
    planned_departure := some 10, planned_arrival := some 40,
    realtime_departure := some 10, realtime_arrival := none,
    status := Status.running }

/-- Concrete stop (no realtime arrival) for `jRun`. -/
def sRun : Stop :=
  { station := "D", planned_arrival := some 40, planned_departure := none,
    realtime_arrival := none, realtime_departure := none,
    left := false, arrived := false, is_extra_stop := false,
    arrival_canceled := false, departure_canceled := false }

/-- Closed instance of `persist_idempotent`: persisting the same completed
journey three times from the empty store equals persisting it once. -/
theorem persist_idempotent_witness :
    (1 : Nat) ≤ 3 ∧ jDone.status = Status.completed ∧
    applyN (fun st => persistAction st jDone [sDone]) 3 [] =
      persistAction [] jDone [sDone] :=
  ⟨by decide, rfl, persist_idempotent [] jDone [sDone] 3 (by decide) rfl⟩

/-- Counterexample to C3 as stated: for a completed mapped journey whose
durably persisted record exists and holds exactly the same stop set, the
Reconciler still returns `Persist`, although the claim's Persist condition
(no record, or stop set differs) is false there. -/
theorem reconcile_persist_despite_identical_record :
    jDone.status = Status.completed ∧
    (some (jDone, [sDone]) : Option Snapshot) ≠ none ∧
    (jDone, [sDone]).2 = [sDone] ∧
    reconcile jDone [sDone] (some (jDone, [sDone])) none = Action.Persist := by
  refine ⟨rfl, by simp, rfl, rfl⟩

/-- C3 (amended): the Reconciler returns `Persist` if and only if the
mapped status is `completed` (in particular when no durable record exists
or the stop set differs); `Track` if and only if the status is `running`
and the snapshot is new or changed since the last observation; `Ignore` if
and only if the status is `running` and the identical snapshot is already
tracked. -/
theorem reconcile_action_characterization (j : Journey) (stops : List Stop)
    (persisted tracked : Option Snapshot) :
    (reconcile j stops persisted tracked = Action.Persist ↔
      j.status = Status.completed) ∧
    (reconcile j stops persisted tracked = Action.Track ↔
      j.status = Status.running ∧ tracked ≠ some (j, stops)) ∧
    (reconcile j stops persisted tracked = Action.Ignore ↔
      j.status = Status.running ∧ tracked = some (j, stops)) := by
  cases hs : j.status <;> by_cases ht : tracked = some (j, stops) <;>
    simp [reconcile, hs, ht]

/-- Closed instance of `reconcile_action_characterization`: a running
journey not yet tracked is `Track`ed. -/
theorem reconcile_action_characterization_witness :
    reconcile jRun [sRun] none none = Action.Track := by
  have h := reconcile_action_characterization jRun [sRun] none none
  exact h.2.1.mpr ⟨rfl, by simp⟩

/-- A `Persist` decision implies the mapped journey is completed. -/
theorem reconcile_persist_status (j : Journey) (stops : List Stop)
    (persisted tracked : Option Snapshot)
    (h : reconcile j stops persisted tracked = Action.Persist) :
    j.status = Status.completed := by
  cases hs : j.status
  · rw [reconcile, hs] at h
    by_cases ht : tracked = some (j, stops) <;> simp [ht] at h
  · rfl

/-- A `Track` decision implies the mapped journey is running. -/
theorem reconcile_track_status (j : Journey) (stops : List Stop)
    (persisted tracked : Option Snapshot)
    (h : reconcile j stops persisted tracked = Action.Track) :
    j.status = Status.running := by
  cases hs : j.status
  · rfl
  · rw [reconcile, hs] at h
    simp at h

/-- Modelled from the spec: the outcome of one per-key poll cycle (§4.1,
§4.4, §7): a decoded payload, a valid "nothing to report", an upstream
failure, or a mapping failure on a malformed payload. -/
inductive PollOutcome where
  | payload (p : RawPayload)
  | notFound
  | upstreamError
  | mappingError
deriving DecidableEq, Repr

/-- Modelled from the spec: the pipeline's per-key state (§4.4, §9): the
natural key, the in-memory tracked snapshot (live view of a running
journey), the durably persisted snapshot for that key, and whether the key
is still in active tracking. -/
structure KeyState where
  key : Key
  tracked : Option Snapshot
  persisted : Option Snapshot
  active : Bool
deriving DecidableEq, Repr

/-- Stop list of the in-memory tracked snapshot (empty when none). -/
def trackedStops (st : KeyState) : List Stop :=
  match st.tracked with
  | some e => e.2
  | none => []

/-- Stop list of the durably persisted snapshot (empty when none). -/
def persistedStops (st : KeyState) : List Stop :=
  match st.persisted with
  | some e => e.2
  | none => []

/-- Modelled from the spec: the tracking update keeps cancellation flags
monotone (§3, §8 — a canceled arrival/departure flag, once set, is never
cleared within the same Journey): each newly mapped stop keeps its mapped
content, with the cancellation flags of the previously tracked stop at the
same station merged in (logical or). -/
def mergeCancel (old fresh : List Stop) : List Stop :=
  fresh.map (fun s =>
    match old.find? (fun t => t.station == s.station) with
    | some t =>
      { s with arrival_canceled := s.arrival_canceled || t.arrival_canceled,
               departure_canceled := s.departure_canceled || t.departure_canceled }
    | none => s)

/-- Modelled from the spec: one per-key poll cycle (§4.4, §5): fetch
outcome → map → reconcile → apply. An inactive key (already completed and
persisted, hence dropped from tracking and never re-added) is untouched.
`UpstreamError`/`MappingError`/`NotFound` leave state unchanged. A
`Persist` decision commits the journey with its full merged stop set,
removes the key from the live view and drops it from active tracking; a
`Track` decision updates the in-memory snapshot only; `Ignore` changes
nothing. -/
def pollStep (st : KeyState) (o : PollOutcome) : KeyState :=
  if st.active then
    match o with
    | PollOutcome.payload p =>
      match reconcile (mapPayload p).1 (mapPayload p).2 st.persisted st.tracked with
      | Action.Persist =>
        { st with tracked := none,
                  persisted := some ((mapPayload p).1,
                    mergeCancel (trackedStops st) (mapPayload p).2),
                  active := false }
      | Action.Track =>
        { st with tracked := some ((mapPayload p).1,
                    mergeCancel (trackedStops st) (mapPayload p).2) }
      | Action.Ignore => st
    | _ => st
  else st

/-- Per-key pipeline invariant: tracked journeys are running and carry the
state's key, persisted journeys are completed and carry the state's key,
and a persisted key is no longer actively tracked. -/
def keyInvB (st : KeyState) : Bool :=
  (match st.tracked with
   | some e => jkey e.1 == st.key && e.1.status == Status.running
   | none => true) &&
  (match st.persisted with
   | some e => jkey e.1 == st.key && e.1.status == Status.completed
   | none => true) &&
  (!st.persisted.isSome || !st.active)

/-- A poll outcome concerns the given key (per-key pipeline fetches by
vehicle identifier and service date, §4.4). -/
def outcomeKeyed (k : Key) : PollOutcome → Bool
  | PollOutcome.payload p => p.vehicle_uri == k.1 && p.service_date == k.2
  | _ => true

/-- The journey observable for a key: the live tracked view when present,
else the durably persisted record (§6 read surface). -/
def obs (st : KeyState) : Option Snapshot :=
  match st.tracked with
  | some e => some e
  | none => st.persisted

/-- A poll step never changes the state's key field. -/
theorem pollStep_key (st : KeyState) (o : PollOutcome) :
    (pollStep st o).key = st.key := by
  unfold pollStep
  by_cases h : st.active
  · simp only [h, if_true]
    cases o with
    | payload p =>
      cases hr : reconcile (mapPayload p).1 (mapPayload p).2 st.persisted st.tracked <;>
        simp [hr]
    | notFound => rfl
    | upstreamError => rfl
    | mappingError => rfl
  · simp [h]

/-- An inactive key is untouched by a poll step. -/
theorem pollStep_inactive (st : KeyState) (o : PollOutcome)
    (h : st.active = false) : pollStep st o = st := by
  unfold pollStep
  simp [h]

/-- An inactive key is untouched by any sequence of poll steps. -/
theorem foldl_pollStep_inactive (st : KeyState) (os : List PollOutcome)
    (h : st.active = false) : List.foldl pollStep st os = st := by
  induction os with
  | nil => rfl
  | cons o rest ih => rw [List.foldl_cons, pollStep_inactive st o h, ih]

/-- One poll step for the state's own key preserves the pipeline invariant. -/
theorem pollStep_keyInv (st : KeyState) (o : PollOutcome)
    (hinv : keyInvB st = true) (ho : outcomeKeyed st.key o = true) :
    keyInvB (pollStep st o) = true := by
  by_cases hact : st.active
  · cases o with
    | payload p =>
      have hkey : jkey (mapPayload p).1 = st.key := by
        simp only [outcomeKeyed, Bool.and_eq_true, beq_iff_eq] at ho
        have : jkey (mapPayload p).1 = (p.vehicle_uri, p.service_date) := rfl
        rw [this, ho.1, ho.2]
      unfold pollStep
      simp only [hact, if_true]
      cases hr : reconcile (mapPayload p).1 (mapPayload p).2 st.persisted st.tracked with
      | Persist =>
        have hc := reconcile_persist_status _ _ _ _ hr
        simp [keyInvB, hkey, hc]
      | Track =>
        have hc := reconcile_track_status _ _ _ _ hr
        unfold keyInvB at hinv ⊢
        simp only [Bool.and_eq_true] at hinv ⊢
        refine ⟨⟨?_, ?_⟩, ?_⟩
        · simp [hkey, hc]
        · exact hinv.1.2
        · have h3 := hinv.2
          rw [hact] at h3
          exact h3
      | Ignore => exact hinv
    | notFound => rw [show pollStep st PollOutcome.notFound = st from by
        unfold pollStep; simp [hact]]; exact hinv
    | upstreamError => rw [show pollStep st PollOutcome.upstreamError = st from by
        unfold pollStep; simp [hact]]; exact hinv
    | mappingError => rw [show pollStep st PollOutcome.mappingError = st from by
        unfold pollStep; simp [hact]]; exact hinv
  · rw [pollStep_inactive st o (by simpa using hact)]
    exact hinv

/-- The invariant and the key survive any keyed outcome sequence. -/
theorem foldl_pollStep_keyInv (st : KeyState) (os : List PollOutcome)
    (hinv : keyInvB st = true)
    (hkeys : os.all (outcomeKeyed st.key) = true) :
    keyInvB (List.foldl pollStep st os) = true ∧
    (List.foldl pollStep st os).key = st.key := by
  induction os generalizing st with
  | nil => exact ⟨hinv, rfl⟩
  | cons o rest ih =>
    rw [List.foldl_cons]
    have hks : outcomeKeyed st.key o = true ∧
        rest.all (outcomeKeyed st.key) = true := by
      simpa [List.all_cons, Bool.and_eq_true] using hkeys
    have h1 := pollStep_keyInv st o hinv hks.1
    have hkeq := pollStep_key st o
    have h2 := ih (pollStep st o) h1 (by rw [hkeq]; exact hks.2)
    exact ⟨h2.1, by rw [h2.2, hkeq]⟩

/-- Under the invariant, an observable journey carries the state's key. -/
theorem obs_key (st : KeyState) (hinv : keyInvB st = true) (e : Snapshot)
    (he : obs st = some e) : jkey e.1 = st.key := by
  unfold keyInvB at hinv
  simp only [Bool.and_eq_true] at hinv
  cases htr : st.tracked with
  | some e0 =>
    unfold obs at he
    rw [htr] at he
    have he0 : some e0 = some e := he
    injection he0 with he1
    subst he1
    rw [htr] at hinv
    have h1 := hinv.1.1
    simp only [Bool.and_eq_true, beq_iff_eq] at h1
    exact h1.1
  | none =>
    unfold obs at he
    rw [htr] at he
    have hpe : st.persisted = some e := he
    rw [hpe] at hinv
    have h1 := hinv.1.2
    simp only [Bool.and_eq_true, beq_iff_eq] at h1
    exact h1.1

/-- Under the invariant, a key whose observable journey is completed is no
longer actively tracked (so its state is frozen). -/
theorem obs_completed_inactive (st : KeyState) (hinv : keyInvB st = true)
    (e : Snapshot) (he : obs st = some e)
    (hc : e.1.status = Status.completed) : st.active = false := by
  unfold keyInvB at hinv
  simp only [Bool.and_eq_true] at hinv
  cases htr : st.tracked with
  | some e0 =>
    unfold obs at he
    rw [htr] at he
    have he0 : some e0 = some e := he
    injection he0 with he1
    subst he1
    rw [htr] at hinv
    have h1 := hinv.1.1
    simp only [Bool.and_eq_true, beq_iff_eq] at h1
    rw [hc] at h1
    exact absurd h1.2 (by decide)
  | none =>
    unfold obs at he
    rw [htr] at he
    have hpe : st.persisted = some e := he
    have h3 := hinv.2
    rw [hpe] at h3
    simpa using h3

/-- C4: over any sequence of keyed pipeline operations, the observable
Journey for a key never changes its natural-key identity, and its status
never transitions from completed back to running (the pipeline invariant
is preserved throughout). -/
theorem journey_status_monotone_and_identity_immutable
    (st : KeyState) (os : List PollOutcome)
    (hinv : keyInvB st = true)
    (hkeys : os.all (outcomeKeyed st.key) = true) :
    keyInvB (List.foldl pollStep st os) = true ∧
    (List.foldl pollStep st os).key = st.key ∧
    ∀ e0 e1 : Snapshot, obs st = some e0 →
      obs (List.foldl pollStep st os) = some e1 →
      jkey e1.1 = jkey e0.1 ∧
      (e0.1.status = Status.completed → e1.1.status = Status.completed) := by
  have hmain := foldl_pollStep_keyInv st os hinv hkeys
  refine ⟨hmain.1, hmain.2, ?_⟩
  intro e0 e1 h0 h1
  have hk0 := obs_key st hinv e0 h0
  have hk1 := obs_key _ hmain.1 e1 h1
  refine ⟨by rw [hk1, hmain.2, hk0], ?_⟩
  intro hc0
  have hfr : st.active = false := obs_completed_inactive st hinv e0 h0 hc0
  have hfz : List.foldl pollStep st os = st := foldl_pollStep_inactive st os hfr
  rw [hfz, h0] at h1
  injection h1 with h1e
  rw [← h1e]
  exact hc0

/-- Concrete payload for key `("v1", "d1")` with a realtime terminus
arrival (maps to a completed journey). -/
def pDone : RawPayload :=
  { vehicle_uri := "v1", service_date := "d1", vehicle_name := "IC 1",
    planned_itinerary := ["A", "D"],
    stops := [
      { station := "A", planned_arrival := none, planned_departure := some 10,
        realtime_arrival := none, realtime_departure := some 10,
        left := true, arrived := false,
        arrival_canceled := false, departure_canceled := false },
      { station := "D", planned_arrival := some 40, planned_departure := none,
        realtime_arrival := some 42, realtime_departure := none,
        left := false, arrived := true,
        arrival_canceled := false, departure_canceled := false }] }

/-- Fresh pipeline state for key `("v1", "d1")`. -/
def stFresh : KeyState :=
  { key := ("v1", "d1"), tracked := none, persisted := none, active := true }

/-- Closed instance of `journey_status_monotone_and_identity_immutable`:
one completed poll of a fresh key keeps the invariant and the key. -/
theorem journey_status_monotone_witness :
    keyInvB stFresh = true ∧
    List.all [PollOutcome.payload pDone] (outcomeKeyed stFresh.key) = true ∧
    keyInvB (List.foldl pollStep stFresh [PollOutcome.payload pDone]) = true ∧
    (List.foldl pollStep stFresh [PollOutcome.payload pDone]).key = stFresh.key := by
  have h := journey_status_monotone_and_identity_immutable stFresh
    [PollOutcome.payload pDone] (by decide) (by decide)
  exact ⟨by decide, by decide, h.1, h.2.1⟩

/-- C6: a poll that fails with `UpstreamError` or `MappingError` leaves the
key's entire state — in-memory tracked and durably persisted alike —
exactly as it was before the poll, producing no partial Journey or Stop
data. -/
theorem failed_poll_leaves_state_unchanged (st : KeyState) :
    pollStep st PollOutcome.upstreamError = st ∧
    pollStep st PollOutcome.mappingError = st := by
  constructor <;> (unfold pollStep; cases st.active <;> simp)

/-- A stop list carries the station and every stop of that station has the
selected flag set. -/
def stickyF (f : Stop → Bool) (l : List Stop) (u : String) : Prop :=
  (∃ s ∈ l, s.station = u) ∧ ∀ s ∈ l, s.station = u → f s = true

/-- A poll outcome whose payload (if any) reports the given station. -/
def outcomeHasStation (u : String) : PollOutcome → Prop
  | PollOutcome.payload p => ∃ r ∈ p.stops, r.station = u
  | _ => True

/-- Cancellation-flag invariant for one key and station: while nothing is
persisted the flag is set throughout the tracked stop list; once persisted,
the key is inactive and the flag is set throughout the persisted stop list. -/
def cancelFlagInv (f : Stop → Bool) (u : String) (st : KeyState) : Prop :=
  (st.persisted = none ∧ stickyF f (trackedStops st) u) ∨
  (st.active = false ∧ st.tracked = none ∧ stickyF f (persistedStops st) u)

/-- Merging cancellation flags keeps a set flag set at its station. -/
theorem mergeCancel_sticky (f : Stop → Bool)
    (hf : f = Stop.arrival_canceled ∨ f = Stop.departure_canceled)
    (old fresh : List Stop) (u : String)
    (hold : stickyF f old u) (hmem : ∃ s ∈ fresh, s.station = u) :
    stickyF f (mergeCancel old fresh) u := by
  obtain ⟨⟨t0, ht0, ht0u⟩, holdall⟩ := hold
  constructor
  · obtain ⟨s, hs, hsu⟩ := hmem
    refine ⟨_, List.mem_map_of_mem _ hs, ?_⟩
    cases hfind : old.find? (fun t => t.station == s.station) <;>
      simp [hfind, hsu]
  · intro m hm hmu
    obtain ⟨s, hs, hms⟩ := List.mem_map.mp hm
    subst hms
    have hsu : s.station = u := by
      cases hfind : old.find? (fun t => t.station == s.station) <;>
        simpa [hfind] using hmu
    have hsome : (old.find? (fun t => t.station == s.station)).isSome := by
      rw [List.find?_isSome]
      exact ⟨t0, ht0, by simp [beq_iff_eq, ht0u, hsu]⟩
    obtain ⟨t, hfind⟩ := Option.isSome_iff_exists.mp hsome
    have htmem := List.mem_of_find?_eq_some hfind
    have htst := List.find?_some hfind
    simp only [beq_iff_eq] at htst
    have htu : t.station = u := by rw [htst, hsu]
    have htf : f t = true := holdall t htmem htu
    simp only [hfind]
    cases hf with
    | inl h =>
      subst h
      simp only [Stop.arrival_canceled] at htf ⊢
      simp [htf]
    | inr h =>
      subst h
      simp only [Stop.departure_canceled] at htf ⊢
      simp [htf]

/-- One poll step whose payload reports the station preserves the
cancellation-flag invariant. -/
theorem pollStep_cancelInv (f : Stop → Bool)
    (hf : f = Stop.arrival_canceled ∨ f = Stop.departure_canceled)
    (u : String) (st : KeyState) (o : PollOutcome)
    (hinv : cancelFlagInv f u st) (ho : outcomeHasStation u o) :
    cancelFlagInv f u (pollStep st o) := by
  by_cases hact : st.active
  · cases o with
    | payload p =>
      cases hinv with
      | inr h2 =>
        rw [h2.1] at hact
        exact absurd hact (by decide)
      | inl h1 =>
        obtain ⟨hper, hsticky⟩ := h1
        have hmem : ∃ s ∈ (mapPayload p).2, s.station = u := by
          obtain ⟨r, hr, hru⟩ := ho
          exact ⟨mapStop p.planned_itinerary r,
            List.mem_map_of_mem _ hr, by simp [mapStop, hru]⟩
        have hms := mergeCancel_sticky f hf (trackedStops st) (mapPayload p).2 u
          hsticky hmem
        unfold pollStep
        simp only [hact, if_true]
        cases hr : reconcile (mapPayload p).1 (mapPayload p).2 st.persisted st.tracked with
        | Persist => exact Or.inr ⟨rfl, rfl, hms⟩
        | Track => exact Or.inl ⟨hper, hms⟩
        | Ignore => exact Or.inl ⟨hper, hsticky⟩
    | notFound => rw [show pollStep st PollOutcome.notFound = st from by
        unfold pollStep; simp [hact]]; exact hinv
    | upstreamError => rw [show pollStep st PollOutcome.upstreamError = st from by
        unfold pollStep; simp [hact]]; exact hinv
    | mappingError => rw [show pollStep st PollOutcome.mappingError = st from by
        unfold pollStep; simp [hact]]; exact hinv
  · rw [pollStep_inactive st o (by simpa using hact)]
    exact hinv

/-- The cancellation-flag invariant survives any outcome sequence whose
payloads keep reporting the station. -/
theorem foldl_pollStep_cancelInv (f : Stop → Bool)
    (hf : f = Stop.arrival_canceled ∨ f = Stop.departure_canceled)
    (u : String) (st : KeyState) (os : List PollOutcome)
    (hinv : cancelFlagInv f u st)
    (hos : ∀ o ∈ os, outcomeHasStation u o) :
    cancelFlagInv f u (List.foldl pollStep st os) := by
  induction os generalizing st with
  | nil => exact hinv
  | cons o rest ih =>
    rw [List.foldl_cons]
    exact ih (pollStep st o)
      (pollStep_cancelInv f hf u st o hinv (hos o (by simp)))
      (fun o2 h2 => hos o2 (by simp [h2]))

/-- C5: once a cancellation flag (arrival or departure) has been observed
true for a station of a Journey, it stays true in the combined tracked and
persisted state after every subsequent sequence of polls of that Journey
(each poll reporting the journey's itinerary, hence the station); the
pipeline never resets a cancellation flag to false. -/
theorem cancellation_flags_monotone (f : Stop → Bool)
    (hf : f = Stop.arrival_canceled ∨ f = Stop.departure_canceled)
    (u : String) (st : KeyState) (os : List PollOutcome)
    (hinv : cancelFlagInv f u st)
    (hos : ∀ o ∈ os, outcomeHasStation u o) :
    stickyF f (trackedStops (List.foldl pollStep st os) ++
      persistedStops (List.foldl pollStep st os)) u := by
  have h := foldl_pollStep_cancelInv f hf u st os hinv hos
  cases h with
  | inl h1 =>
    have hp : persistedStops (List.foldl pollStep st os) = [] := by
      unfold persistedStops
      rw [h1.1]
    rw [hp, List.append_nil]
    exact h1.2
  | inr h2 =>
    have ht : trackedStops (List.foldl pollStep st os) = [] := by
      unfold trackedStops
      rw [h2.2.1]
    rw [ht, List.nil_append]
    exact h2.2.2

/-- Stop at station D with its arrival-cancellation flag observed true. -/
def sCanc : Stop :=
  { station := "D", planned_arrival := some 40, planned_departure := none,
    realtime_arrival := none, realtime_departure := none,
    left := false, arrived := false, is_extra_stop := false,
    arrival_canceled := true, departure_canceled := false }

/-- State tracking a running journey whose stop D has a canceled arrival. -/
def stCanc : KeyState :=
  { key := ("v1", "d1"), tracked := some (jRun, [sCanc]),
    persisted := none, active := true }

/-- Closed instance of `cancellation_flags_monotone`: after a further poll
whose payload reports stop D without the cancellation flag, the flag stays
true in the stored state. -/
theorem cancellation_flags_monotone_witness :
    stickyF Stop.arrival_canceled
      (trackedStops (List.foldl pollStep stCanc [PollOutcome.payload pDone]) ++
        persistedStops (List.foldl pollStep stCanc [PollOutcome.payload pDone]))
      "D" := by
  apply cancellation_flags_monotone Stop.arrival_canceled (Or.inl rfl) "D" stCanc
    [PollOutcome.payload pDone]
  · exact Or.inl ⟨rfl, show (∃ s ∈ [sCanc], s.station = "D") ∧
      ∀ s ∈ [sCanc], s.station = "D" → s.arrival_canceled = true by decide⟩
  · intro o ho
    rw [List.mem_singleton] at ho
    subst ho
    exact show ∃ r ∈ pDone.stops, r.station = "D" by decide

/-- JavaScript truthiness of a nullable string: `null`/`undefined` and the
empty string are falsy, every other string truthy. -/
def jsTruthyStr : Option String → Bool
  | none => false
  | some s => !(s == "")

/-- Unreserved output alphabet of `encodeURIComponent`: letters, digits and
`- _ . ! ~ * ( )` plus the apostrophe (codepoint 39). -/
def isUnreservedChar (c : Char) : Bool :=
  (65 ≤ c.toNat && c.toNat ≤ 90) || (97 ≤ c.toNat && c.toNat ≤ 122) ||
  (48 ≤ c.toNat && c.toNat ≤ 57) ||
  c.toNat == 45 || c.toNat == 95 || c.toNat == 46 || c.toNat == 33 ||
  c.toNat == 126 || c.toNat == 42 || c.toNat == 39 ||
  c.toNat == 40 || c.toNat == 41

/-- Upper-case hexadecimal digit for a value below 16. -/
def hexDigitChar (n : Nat) : Char :=
  if n < 10 then Char.ofNat (48 + n) else Char.ofNat (55 + n)

/-- Percent-encoding of one byte value. -/
def pctByte (b : Nat) : String :=
  String.mk [Char.ofNat 37, hexDigitChar (b / 16), hexDigitChar (b % 16)]

/-- UTF-8 byte sequence of a codepoint. -/
def utf8Bytes (n : Nat) : List Nat :=
  if n < 128 then [n]
  else if n < 2048 then [192 + n / 64, 128 + n % 64]
  else if n < 65536 then [224 + n / 4096, 128 + (n / 64) % 64, 128 + n % 64]
  else [240 + n / 262144, 128 + (n / 4096) % 64, 128 + (n / 64) % 64, 128 + n % 64]

/-- Model of JavaScript `encodeURIComponent`: unreserved characters pass
through, every other character is replaced by the percent-encoding of its
UTF-8 bytes. -/
def encodeURIComponent (s : String) : String :=
  String.join (s.data.map (fun c =>
    if isUnreservedChar c then String.singleton c
    else String.join ((utf8Bytes c.toNat).map pctByte)))

/-- A backend HTTP response as seen by the proxy: status code and the JSON
body text. -/
structure BackendResp where
  status : Nat
  body : String
deriving DecidableEq, Repr

/-- Body of a proxy response: either the backend's JSON forwarded
unchanged, or the upstream-error object carrying the backend status. -/
inductive ProxyBody where
  | json (data : String)
  | upstreamErr (status : Nat)
deriving DecidableEq, Repr

/-- A response produced by a proxy route. -/
structure ProxyResp where
  status : Nat
  body : ProxyBody
deriving DecidableEq, Repr

/-- Fetch `Response.ok`: status in the 2xx range. -/
def respOk (status : Nat) : Bool :=
  decide (200 ≤ status) && decide (status ≤ 299)

/-- Translated from src/frontend/app/api/trains/route.ts: the target URL of
the list proxy — `BACKEND_URL/trains` with a `status` query parameter
(URI-encoded) appended when the incoming `status` search parameter is
truthy. -/
def trainsTarget (backendUrl : String) (statusParam : Option String) : String :=
  backendUrl ++ "/trains" ++
    (if jsTruthyStr statusParam then
       "?status=" ++ encodeURIComponent (statusParam.getD "")
     else "")

/-- Translated from src/frontend/app/api/trains/route.ts: the list proxy
response — on a non-ok backend response it answers 502 with the
upstream-error object, on an ok response it answers 200 forwarding the
backend's JSON. -/
def trainsListGET (backend : BackendResp) : ProxyResp :=
  if respOk backend.status then
    { status := 200, body := ProxyBody.json backend.body }
  else
    { status := 502, body := ProxyBody.upstreamErr backend.status }

/-- Translated from src/frontend/app/api/trains/[id]/route.ts: the detail
proxy target — `BACKEND_URL/trains/` followed by the URI-encoded id. -/
def trainDetailTarget (backendUrl id : String) : String :=
  backendUrl ++ "/trains/" ++ encodeURIComponent id

/-- Translated from src/frontend/app/api/trains/[id]/route.ts: the detail
proxy response — on a non-ok backend response it answers with the backend's
own status and the upstream-error object, on an ok response 200 with the
backend's JSON. -/
def trainDetailGET (backend : BackendResp) : ProxyResp :=
  if respOk backend.status then
    { status := 200, body := ProxyBody.json backend.body }
  else
    { status := backend.status, body := ProxyBody.upstreamErr backend.status }

/-- Counterexample to C9 as stated: a request carrying the `status` search
parameter with an empty value (`?status=`) does carry the parameter, yet
the computed target URL omits it — it equals the bare no-parameter target —
because JavaScript truthiness drops the empty string, so "parameter
present" and "parameter forwarded" differ. -/
theorem trains_list_target_param_counterexample :
    (some "" : Option String) ≠ none ∧
    trainsTarget "b" (some "") = "b/trains" ∧
    trainsTarget "b" (some "") = trainsTarget "b" none := by
  refine ⟨by simp, by decide, by decide⟩

/-- C9 (amended): the list proxy maps every non-2xx backend status `s` to
HTTP 502 with the upstream-error body carrying `s`, forwards a 2xx backend
response as 200 with the JSON body unchanged, and the target URL includes
the URI-encoded `status` query parameter exactly when the incoming request
carried one with a non-empty value. -/
theorem trains_list_proxy_behaviour (burl : String) (sp : Option String)
    (b : BackendResp) :
    (respOk b.status = false →
      trainsListGET b = { status := 502, body := ProxyBody.upstreamErr b.status }) ∧
    (respOk b.status = true →
      trainsListGET b = { status := 200, body := ProxyBody.json b.body }) ∧
    (∀ v, sp = some v → v ≠ "" →
      trainsTarget burl sp = burl ++ "/trains" ++ ("?status=" ++ encodeURIComponent v)) ∧
    ((sp = none ∨ sp = some "") → trainsTarget burl sp = burl ++ "/trains") := by
  refine ⟨?_, ?_, ?_, ?_⟩
  · intro h
    simp [trainsListGET, h]
  · intro h
    simp [trainsListGET, h]
  · intro v hv hne
    subst hv
    simp [trainsTarget, jsTruthyStr, hne]
  · intro h
    cases h with
    | inl h0 => subst h0; simp [trainsTarget, jsTruthyStr]
    | inr h0 => subst h0; simp [trainsTarget, jsTruthyStr]

/-- Closed instance of `trains_list_proxy_behaviour`: a backend 500 becomes
a 502 upstream-error response, and a non-empty status value is forwarded in
the target URL. -/
theorem trains_list_proxy_behaviour_witness :
    respOk 500 = false ∧
    trainsListGET { status := 500, body := "e" } =
      { status := 502, body := ProxyBody.upstreamErr 500 } ∧
    trainsTarget "b" (some "running") =
      "b" ++ "/trains" ++ ("?status=" ++ encodeURIComponent "running") := by
  have h := trains_list_proxy_behaviour "b" (some "running")
    { status := 500, body := "e" }
  exact ⟨by decide, h.1 (by decide), h.2.2.1 "running" rfl (by decide)⟩

/-- C10: the detail proxy targets `BACKEND_URL/trains/` with the id
URI-encoded; a non-2xx backend status is passed through unchanged (so a
backend 404 reaches the client as 404, unlike the list proxy's blanket
502), and a 2xx backend response is forwarded as 200 with its JSON body
unchanged. -/
theorem train_detail_proxy_behaviour (burl id : String) (b : BackendResp) :
    trainDetailTarget burl id = burl ++ "/trains/" ++ encodeURIComponent id ∧
    (respOk b.status = false →
      trainDetailGET b =
        { status := b.status, body := ProxyBody.upstreamErr b.status }) ∧
    (respOk b.status = true →
      trainDetailGET b = { status := 200, body := ProxyBody.json b.body }) ∧
    trainDetailGET { status := 404, body := b.body } =
      { status := 404, body := ProxyBody.upstreamErr 404 } := by
  have h404 : respOk 404 = false := by decide
  refine ⟨rfl, ?_, ?_, by simp [trainDetailGET, h404]⟩
  · intro h
    simp [trainDetailGET, h]
  · intro h
    simp [trainDetailGET, h]

/-- Closed instance of `train_detail_proxy_behaviour`: a backend 404 is
returned to the client as 404 with the upstream-error body. -/
theorem train_detail_proxy_behaviour_witness :
    respOk 404 = false ∧
    trainDetailGET { status := 404, body := "e" } =
      { status := 404, body := ProxyBody.upstreamErr 404 } := by
  have h := train_detail_proxy_behaviour "b" "5" { status := 404, body := "e" }
  exact ⟨by decide, h.2.1 (by decide)⟩

/-- How a stop's realtime time is rendered by the train detail page: either
a dash or a formatted date of the nonempty serialized timestamp. -/
inductive TimeRender where
  | dash
  | shown (iso : String)
deriving DecidableEq, Repr

/-- Translated from src/frontend/app/train/[id]/page.tsx (and
src/unnamed/part_000): the stop line renders the realtime departure when
truthy, else the realtime arrival when truthy, else a dash. -/
def renderReal (rd ra : Option String) : TimeRender :=
  if jsTruthyStr rd then TimeRender.shown (rd.getD "")
  else if jsTruthyStr ra then TimeRender.shown (ra.getD "")
  else TimeRender.dash

/-- Modelled from the spec: the read API's JSON rendering of one timestamp
(the backend source is absent) — it never produces the empty string and is
injective, standing in for an ISO datetime string. -/
def isoOf (t : Nat) : String :=
  "T" ++ toString t

/-- Modelled from the spec: JSON serialization of a nullable timestamp —
absence becomes JSON null (`none`), a value becomes its nonempty
rendering, so absent and epoch stay structurally distinct end to end. -/
def timeJson : Option Nat → Option String :=
  Option.map isoOf

/-- The serialized form of a present timestamp is never the empty string. -/
theorem isoOf_ne_empty (t : Nat) : isoOf t ≠ "" := by
  intro h
  have hlen := congrArg String.length h
  rw [isoOf, String.length_append] at hlen
  have h1 : "T".length = 1 := rfl
  have h0 : "".length = 0 := rfl
  rw [h1, h0] at hlen
  omega

/-- C8: an absent realtime field is never rendered or read as a zero/epoch
timestamp: absence survives the Journey Mapper verbatim, survives the
persistence round trip, serializes to null, and renders as a dash — while
any present timestamp (epoch included) renders as a shown date, which is
distinct from the dash. -/
theorem absent_realtime_distinct_from_epoch :
    (∀ (pl : List String) (r : RawStop),
      (mapStop pl r).realtime_arrival = r.realtime_arrival ∧
      (mapStop pl r).realtime_departure = r.realtime_departure) ∧
    (∀ (s : Store) (k : Key) (v : Snapshot),
      getPersisted (upsert s k v) k = some v) ∧
    renderReal (timeJson none) (timeJson none) = TimeRender.dash ∧
    (∀ t : Nat, renderReal (timeJson none) (timeJson (some t)) =
        TimeRender.shown (isoOf t) ∧
      TimeRender.shown (isoOf t) ≠ TimeRender.dash) := by
  refine ⟨fun pl r => ⟨rfl, rfl⟩, getPersisted_upsert, rfl, ?_⟩
  intro t
  have hne := isoOf_ne_empty t
  constructor
  · simp [renderReal, timeJson, jsTruthyStr, hne]
  · simp

/-- Closed instance of `absent_realtime_distinct_from_epoch`: the epoch
timestamp renders as a shown date, distinct from the dash of absence. -/
theorem absent_realtime_distinct_from_epoch_witness :
    renderReal (timeJson none) (timeJson none) = TimeRender.dash ∧
    renderReal (timeJson none) (timeJson (some 0)) = TimeRender.shown (isoOf 0) := by
  have h := absent_realtime_distinct_from_epoch
  exact ⟨h.2.2.1, (h.2.2.2 0).1⟩

end Slac
